import Mathlib

/-!
Formal model of the BMath numerical root-finding module (`bmath/Numerical.py`,
class `root_finding`).

Real numbers are modelled as rationals `ℚ`; division is Mathlib field division,
which is total with `q / 0 = 0` (the Python code would instead raise a
ZeroDivisionError at such a point).  Each Python `for _ in range(n)` loop is
modelled by structural recursion on a fuel argument placed last, one fuel step
per executed loop body.  `None` is modelled by `Option.none`.

Besides the direct translations, the file contains instrumented variants
(suffix `I`, `T` or `Tr`) that additionally count executed loop bodies,
count evaluations of the supplied callable, or record the trace of callable
evaluations.  Their first components agree with the plain translations
(`*_fst` lemmas below).
-/

namespace root_finding

/-- Translation of `root_finding.false_position` loop body
(`Numerical.py` lines 35-43): `c = (a*func(b) - b*func(a)) / (func(b) - func(a))`,
return `c` when `abs(func(c)) < tolerance`, otherwise replace an endpoint. -/
def false_position_loop (func : ℚ → ℚ) (a b tolerance : ℚ) : ℕ → Option ℚ
  | 0 => none
  | n + 1 =>
    let c := (a * func b - b * func a) / (func b - func a)
    if |func c| < tolerance then some c
    else if func c * func a < 0 then false_position_loop func a c tolerance n
    else false_position_loop func c b tolerance n

/-- Translation of `root_finding.false_position` (`Numerical.py` lines 18-43):
precondition check `func(a)*func(b) >= 0` returns `None`, else the loop runs. -/
def false_position (func : ℚ → ℚ) (a b tolerance : ℚ) (max_iterations : ℕ) :
    Option ℚ :=
  if func a * func b ≥ 0 then none
  else false_position_loop func a b tolerance max_iterations

/-- Translation of `root_finding.newton_raphson` (`Numerical.py` lines 46-67):
`x = x - f(x)/f1(x)`, return `x` when `abs(f(x)) < tolerance`. -/
def newton_raphson (f f1 : ℚ → ℚ) (x tolerance : ℚ) : ℕ → Option ℚ
  | 0 => none
  | n + 1 =>
    let x1 := x - f x / f1 x
    if |f x1| < tolerance then some x1
    else newton_raphson f f1 x1 tolerance n

/-- Translation of `root_finding.bisection` (`Numerical.py` lines 70-93):
`c = (a+b)/2`, return `c` when `abs(func(c)) < tolerance`, otherwise replace
an endpoint exactly as the source does. -/
def bisection (func : ℚ → ℚ) (a b tolerance : ℚ) : ℕ → Option ℚ
  | 0 => none
  | n + 1 =>
    let c := (a + b) / 2
    if |func c| < tolerance then some c
    else if func c * func a < 0 then bisection func a c tolerance n
    else bisection func c b tolerance n

/-- Translation of `root_finding.secant` (`Numerical.py` lines 96-117):
`x2 = x1 - f(x1)*(x1-x0)/(f(x1)-f(x0))`, return `x2` when
`abs(f(x2)) < tolerance`, else slide the window. -/
def secant (f : ℚ → ℚ) (x0 x1 tolerance : ℚ) : ℕ → Option ℚ
  | 0 => none
  | n + 1 =>
    let x2 := x1 - f x1 * (x1 - x0) / (f x1 - f x0)
    if |f x2| < tolerance then some x2
    else secant f x1 x2 tolerance n

/-- Translation of `root_finding.tangent` (`Numerical.py` lines 120-140):
`x1 = x0 - f(x0)/f1(x0)`, return `x1` when `abs(f(x1)) < tolerance`,
else `x0 = x1`. -/
def tangent (f f1 : ℚ → ℚ) (x0 tolerance : ℚ) : ℕ → Option ℚ
  | 0 => none
  | n + 1 =>
    let x1 := x0 - f x0 / f1 x0
    if |f x1| < tolerance then some x1
    else tangent f f1 x1 tolerance n

/-- Translation of `root_finding.fixed_point_iteration`
(`Numerical.py` lines 143-162): `x = func(x)`, return `x` when
`abs(x - func(x)) < tolerance`. -/
def fixed_point_iteration (func : ℚ → ℚ) (x tolerance : ℚ) : ℕ → Option ℚ
  | 0 => none
  | n + 1 =>
    let x1 := func x
    if |x1 - func x1| < tolerance then some x1
    else fixed_point_iteration func x1 tolerance n

/-- Translation of `root_finding.num_derivatives` (`Numerical.py` lines
165-177): the forward-difference quotient `(func(x0+h) - func(x0)) / h`. -/
def num_derivatives (func : ℚ → ℚ) (x0 h : ℚ) : ℚ :=
  (func (x0 + h) - func x0) / h

/-- Translation of the loop of `root_finding.bracket_of`
(`Numerical.py` lines 200-205): `c, fc = b+s, f(b+s)`; if `fc*fb < 0` return
`(a,c)` ordered; else slide the window and `s *= k`.  Falling off the loop
(Python returns the implicit `None`) is modelled by `none`. -/
def bracket_of_loop (f : ℚ → ℚ) (a fa b fb s k : ℚ) : ℕ → Option (ℚ × ℚ)
  | 0 => none
  | n + 1 =>
    let c := b + s
    let fc := f (b + s)
    if fc * fb < 0 then some (if a < c then (a, c) else (c, a))
    else bracket_of_loop f b fb c fc (s * k) k n

/-- Translation of `root_finding.bracket_of` (`Numerical.py` lines 180-205):
initialise `a, fa = x, f(x)` and `b, fb = a+s, f(a+s)`, swap and negate the
step when `fb > fa`, then run the expanding-search loop. -/
def bracket_of (f : ℚ → ℚ) (x s k : ℚ) (ops : ℕ) : Option (ℚ × ℚ) :=
  let a := x
  let fa := f x
  let b := a + s
  let fb := f (a + s)
  if fb > fa then bracket_of_loop f b fb a fa (-s) k ops
  else bracket_of_loop f a fa b fb s k ops

/-- One endpoint-replacement step of `bisection` (`Numerical.py` lines
86, 89-92), exposed as a function on the current endpoints: with
`c = (a+b)/2`, produce `(a, c)` when `func(c)*func(a) < 0` and `(c, b)`
otherwise. -/
def bisection_update (func : ℚ → ℚ) (a b : ℚ) : ℚ × ℚ :=
  let c := (a + b) / 2
  if func c * func a < 0 then (a, c) else (c, b)

/-- One endpoint-replacement step of `false_position` (`Numerical.py` lines
36, 39-42): with `c = (a*func(b) - b*func(a))/(func(b) - func(a))`, produce
`(a, c)` when `func(c)*func(a) < 0` and `(c, b)` otherwise. -/
def false_position_update (func : ℚ → ℚ) (a b : ℚ) : ℚ × ℚ :=
  let c := (a * func b - b * func a) / (func b - func a)
  if func c * func a < 0 then (a, c) else (c, b)

/-- Instrumented `bisection`: also counts executed loop bodies. -/
def bisectionI (func : ℚ → ℚ) (a b tolerance : ℚ) : ℕ → Option ℚ × ℕ
  | 0 => (none, 0)
  | n + 1 =>
    let c := (a + b) / 2
    if |func c| < tolerance then (some c, 1)
    else
      let r := if func c * func a < 0 then bisectionI func a c tolerance n
               else bisectionI func c b tolerance n
      (r.1, r.2 + 1)

/-- Instrumented `false_position_loop`: also counts executed loop bodies. -/
def false_position_loopI (func : ℚ → ℚ) (a b tolerance : ℚ) :
    ℕ → Option ℚ × ℕ
  | 0 => (none, 0)
  | n + 1 =>
    let c := (a * func b - b * func a) / (func b - func a)
    if |func c| < tolerance then (some c, 1)
    else
      let r := if func c * func a < 0
               then false_position_loopI func a c tolerance n
               else false_position_loopI func c b tolerance n
      (r.1, r.2 + 1)

/-- Instrumented `false_position`: also counts executed loop bodies. -/
def false_positionI (func : ℚ → ℚ) (a b tolerance : ℚ) (max_iterations : ℕ) :
    Option ℚ × ℕ :=
  if func a * func b ≥ 0 then (none, 0)
  else false_position_loopI func a b tolerance max_iterations

/-- Instrumented `newton_raphson`: also counts executed loop bodies. -/
def newton_raphsonI (f f1 : ℚ → ℚ) (x tolerance : ℚ) : ℕ → Option ℚ × ℕ
  | 0 => (none, 0)
  | n + 1 =>
    let x1 := x - f x / f1 x
    if |f x1| < tolerance then (some x1, 1)
    else
      let r := newton_raphsonI f f1 x1 tolerance n
      (r.1, r.2 + 1)

/-- Instrumented `tangent`: also counts executed loop bodies. -/
def tangentI (f f1 : ℚ → ℚ) (x0 tolerance : ℚ) : ℕ → Option ℚ × ℕ
  | 0 => (none, 0)
  | n + 1 =>
    let x1 := x0 - f x0 / f1 x0
    if |f x1| < tolerance then (some x1, 1)
    else
      let r := tangentI f f1 x1 tolerance n
      (r.1, r.2 + 1)

/-- Instrumented `secant`: also counts executed loop bodies. -/
def secantI (f : ℚ → ℚ) (x0 x1 tolerance : ℚ) : ℕ → Option ℚ × ℕ
  | 0 => (none, 0)
  | n + 1 =>
    let x2 := x1 - f x1 * (x1 - x0) / (f x1 - f x0)
    if |f x2| < tolerance then (some x2, 1)
    else
      let r := secantI f x1 x2 tolerance n
      (r.1, r.2 + 1)

/-- Instrumented `fixed_point_iteration`: also counts executed loop bodies
(second component) and evaluations of `func` (third component); each loop
body evaluates `func` exactly twice, once for the update `x = func(x)` and
once more inside the test `abs(x - func(x)) < tolerance`. -/
def fixed_point_iterationT (func : ℚ → ℚ) (x tolerance : ℚ) :
    ℕ → Option ℚ × ℕ × ℕ
  | 0 => (none, 0, 0)
  | n + 1 =>
    let x1 := func x
    if |x1 - func x1| < tolerance then (some x1, 1, 2)
    else
      let r := fixed_point_iterationT func x1 tolerance n
      (r.1, r.2.1 + 1, r.2.2 + 2)

/-- Trace-instrumented `newton_raphson`: records, in order, every evaluation
of the supplied callables: `(true, t)` is an evaluation of `f` at `t`,
`(false, t)` an evaluation of `f1` at `t`.  Each loop body evaluates
`f(x)` and `f1(x)` in the update and `f` once more at the new point. -/
def newton_raphsonTr (f f1 : ℚ → ℚ) (x tolerance : ℚ) :
    ℕ → Option ℚ × List (Bool × ℚ)
  | 0 => (none, [])
  | n + 1 =>
    let x1 := x - f x / f1 x
    if |f x1| < tolerance then (some x1, [(true, x), (false, x), (true, x1)])
    else
      let r := newton_raphsonTr f f1 x1 tolerance n
      (r.1, (true, x) :: (false, x) :: (true, x1) :: r.2)

/-- Trace-instrumented `tangent`, with the same evaluation records as
`newton_raphsonTr`. -/
def tangentTr (f f1 : ℚ → ℚ) (x0 tolerance : ℚ) :
    ℕ → Option ℚ × List (Bool × ℚ)
  | 0 => (none, [])
  | n + 1 =>
    let x1 := x0 - f x0 / f1 x0
    if |f x1| < tolerance then (some x1, [(true, x0), (false, x0), (true, x1)])
    else
      let r := tangentTr f f1 x1 tolerance n
      (r.1, (true, x0) :: (false, x0) :: (true, x1) :: r.2)

/-- Step function used by the counterexample to claim C4: a function that is
zero at `0` and one elsewhere. -/
def zeroAtZero : ℚ → ℚ := fun t => if t = 0 then 0 else 1

/-- Step function used by the counterexample to claim C6: a function that is
negative exactly at `1/10` and one elsewhere. -/
def negAtTenth : ℚ → ℚ := fun t => if t = 1/10 then -1 else 1

end root_finding

namespace root_finding

lemma bisection_tol (f : ℚ → ℚ) (tol : ℚ) :
    ∀ (n : ℕ) (a b r : ℚ), bisection f a b tol n = some r → |f r| < tol := by
  intro n
  induction n with
  | zero => intro a b r h; simp [bisection] at h
  | succ n ih =>
    intro a b r h
    simp only [bisection] at h
    split_ifs at h with h1 h2
    · rw [Option.some_inj] at h; rw [← h]; exact h1
    · exact ih _ _ _ h
    · exact ih _ _ _ h

lemma false_position_loop_tol (f : ℚ → ℚ) (tol : ℚ) :
    ∀ (n : ℕ) (a b r : ℚ), false_position_loop f a b tol n = some r → |f r| < tol := by
  intro n
  induction n with
  | zero => intro a b r h; simp [false_position_loop] at h
  | succ n ih =>
    intro a b r h
    simp only [false_position_loop] at h
    split_ifs at h with h1 h2
    · rw [Option.some_inj] at h; rw [← h]; exact h1
    · exact ih _ _ _ h
    · exact ih _ _ _ h

lemma false_position_tol (f : ℚ → ℚ) (a b tol : ℚ) (n : ℕ) (r : ℚ)
    (h : false_position f a b tol n = some r) : |f r| < tol := by
  rw [false_position] at h
  split_ifs at h
  exact false_position_loop_tol f tol n a b r h

lemma newton_raphson_tol (f f1 : ℚ → ℚ) (tol : ℚ) :
    ∀ (n : ℕ) (x r : ℚ), newton_raphson f f1 x tol n = some r → |f r| < tol := by
  intro n
  induction n with
  | zero => intro x r h; simp [newton_raphson] at h
  | succ n ih =>
    intro x r h
    simp only [newton_raphson] at h
    split_ifs at h with h1
    · rw [Option.some_inj] at h; rw [← h]; exact h1
    · exact ih _ _ h

lemma tangent_tol (f f1 : ℚ → ℚ) (tol : ℚ) :
    ∀ (n : ℕ) (x r : ℚ), tangent f f1 x tol n = some r → |f r| < tol := by
  intro n
  induction n with
  | zero => intro x r h; simp [tangent] at h
  | succ n ih =>
    intro x r h
    simp only [tangent] at h
    split_ifs at h with h1
    · rw [Option.some_inj] at h; rw [← h]; exact h1
    · exact ih _ _ h

lemma secant_tol (f : ℚ → ℚ) (tol : ℚ) :
    ∀ (n : ℕ) (x0 x1 r : ℚ), secant f x0 x1 tol n = some r → |f r| < tol := by
  intro n
  induction n with
  | zero => intro x0 x1 r h; simp [secant] at h
  | succ n ih =>
    intro x0 x1 r h
    simp only [secant] at h
    split_ifs at h with h1
    · rw [Option.some_inj] at h; rw [← h]; exact h1
    · exact ih _ _ _ h

lemma fixed_point_iteration_tol (g : ℚ → ℚ) (tol : ℚ) :
    ∀ (n : ℕ) (x r : ℚ),
      fixed_point_iteration g x tol n = some r → |r - g r| < tol := by
  intro n
  induction n with
  | zero => intro x r h; simp [fixed_point_iteration] at h
  | succ n ih =>
    intro x r h
    simp only [fixed_point_iteration] at h
    split_ifs at h with h1
    · rw [Option.some_inj] at h; rw [← h]; exact h1
    · exact ih _ _ h

/-- C1: whenever any of the solvers `bisection`, `false_position`,
`newton_raphson`, `tangent`, `secant` returns a non-sentinel estimate `r`
(i.e. `some r` rather than `none`), the estimate satisfies
`|f r| < tolerance`; for `fixed_point_iteration` with map `g`, a
non-sentinel result `r` satisfies `|r - g r| < tolerance`. -/
theorem claim_C1 :
    (∀ (f : ℚ → ℚ) (a b tol : ℚ) (n : ℕ) (r : ℚ),
        bisection f a b tol n = some r → |f r| < tol) ∧
    (∀ (f : ℚ → ℚ) (a b tol : ℚ) (n : ℕ) (r : ℚ),
        false_position f a b tol n = some r → |f r| < tol) ∧
    (∀ (f f1 : ℚ → ℚ) (x tol : ℚ) (n : ℕ) (r : ℚ),
        newton_raphson f f1 x tol n = some r → |f r| < tol) ∧
    (∀ (f f1 : ℚ → ℚ) (x tol : ℚ) (n : ℕ) (r : ℚ),
        tangent f f1 x tol n = some r → |f r| < tol) ∧
    (∀ (f : ℚ → ℚ) (x0 x1 tol : ℚ) (n : ℕ) (r : ℚ),
        secant f x0 x1 tol n = some r → |f r| < tol) ∧
    (∀ (g : ℚ → ℚ) (x0 tol : ℚ) (n : ℕ) (r : ℚ),
        fixed_point_iteration g x0 tol n = some r → |r - g r| < tol) :=
  ⟨fun f a b tol n r => bisection_tol f tol n a b r,
   fun f a b tol n r => false_position_tol f a b tol n r,
   fun f f1 x tol n r => newton_raphson_tol f f1 tol n x r,
   fun f f1 x tol n r => tangent_tol f f1 tol n x r,
   fun f x0 x1 tol n r => secant_tol f tol n x0 x1 r,
   fun g x0 tol n r => fixed_point_iteration_tol g tol n x0 r⟩

/-- Witness for C1: concrete runs of each solver that return an estimate,
together with the tolerance bound obtained from `claim_C1`. -/
theorem claim_C1_witness :
    (bisection (fun t : ℚ => t) (-1) 1 1 1 = some 0 ∧
      |(fun t : ℚ => t) 0| < 1) ∧
    (false_position (fun t : ℚ => t) (-1) 1 1 1 = some 0 ∧
      |(fun t : ℚ => t) 0| < 1) ∧
    (newton_raphson (fun t : ℚ => t) (fun _ : ℚ => 1) 1 1 1 = some 0 ∧
      |(fun t : ℚ => t) 0| < 1) ∧
    (tangent (fun t : ℚ => t) (fun _ : ℚ => 1) 1 1 1 = some 0 ∧
      |(fun t : ℚ => t) 0| < 1) ∧
    (secant (fun t : ℚ => t) 0 1 1 1 = some 0 ∧
      |(fun t : ℚ => t) 0| < 1) ∧
    (fixed_point_iteration (fun t : ℚ => t) 0 1 1 = some 0 ∧
      |(0 : ℚ) - (fun t : ℚ => t) 0| < 1) :=
  ⟨⟨by norm_num [bisection],
    claim_C1.1 (fun t => t) (-1) 1 1 1 0 (by norm_num [bisection])⟩,
   ⟨by norm_num [false_position, false_position_loop],
    claim_C1.2.1 (fun t => t) (-1) 1 1 1 0
      (by norm_num [false_position, false_position_loop])⟩,
   ⟨by norm_num [newton_raphson],
    claim_C1.2.2.1 (fun t => t) (fun _ => 1) 1 1 1 0
      (by norm_num [newton_raphson])⟩,
   ⟨by norm_num [tangent],
    claim_C1.2.2.2.1 (fun t => t) (fun _ => 1) 1 1 1 0
      (by norm_num [tangent])⟩,
   ⟨by norm_num [secant],
    claim_C1.2.2.2.2.1 (fun t => t) 0 1 1 1 0 (by norm_num [secant])⟩,
   ⟨by norm_num [fixed_point_iteration],
    claim_C1.2.2.2.2.2 (fun t => t) 0 1 1 0
      (by norm_num [fixed_point_iteration])⟩⟩

end root_finding

namespace root_finding

lemma newton_raphsonTr_fst (f f1 : ℚ → ℚ) (tol : ℚ) :
    ∀ (n : ℕ) (x : ℚ),
      (newton_raphsonTr f f1 x tol n).1 = newton_raphson f f1 x tol n := by
  intro n
  induction n with
  | zero => intro x; rfl
  | succ n ih =>
    intro x
    simp only [newton_raphsonTr, newton_raphson]
    by_cases hc : |f (x - f x / f1 x)| < tol
    · simp [hc]
    · simp [hc, ih]

lemma tangentTr_fst (f f1 : ℚ → ℚ) (tol : ℚ) :
    ∀ (n : ℕ) (x : ℚ), (tangentTr f f1 x tol n).1 = tangent f f1 x tol n := by
  intro n
  induction n with
  | zero => intro x; rfl
  | succ n ih =>
    intro x
    simp only [tangentTr, tangent]
    by_cases hc : |f (x - f x / f1 x)| < tol
    · simp [hc]
    · simp [hc, ih]

/-- C2: `newton_raphson` and `tangent` are the same algorithm: on every
function pair, initial guess, tolerance and iteration budget they return the
same result (same estimate, and the sentinel in the same cases), and their
trace-instrumented versions record identical sequences of evaluations of `f`
and `f1`. -/
theorem claim_C2 :
    ∀ (f f1 : ℚ → ℚ) (x tol : ℚ) (n : ℕ),
      newton_raphson f f1 x tol n = tangent f f1 x tol n ∧
      newton_raphsonTr f f1 x tol n = tangentTr f f1 x tol n := by
  intro f f1 x tol n
  induction n generalizing x with
  | zero => exact ⟨rfl, rfl⟩
  | succ n ih =>
    constructor
    · simp only [newton_raphson, tangent]
      by_cases hc : |f (x - f x / f1 x)| < tol
      · simp [hc]
      · simp only [hc, if_neg, if_false]
        exact (ih _).1
    · simp only [newton_raphsonTr, tangentTr]
      by_cases hc : |f (x - f x / f1 x)| < tol
      · simp [hc]
      · simp only [hc, if_neg, if_false]
        rw [(ih _).2]

lemma false_position_none (f : ℚ → ℚ) (a b tol : ℚ) (n : ℕ)
    (h : 0 ≤ f a * f b) : false_position f a b tol n = none := by
  rw [false_position, if_pos (by exact h)]

lemma false_positionI_none (f : ℚ → ℚ) (a b tol : ℚ) (n : ℕ)
    (h : 0 ≤ f a * f b) : false_positionI f a b tol n = (none, 0) := by
  rw [false_positionI, if_pos (by exact h)]

/-- C3: whenever `f(a)*f(b) >= 0`, `false_position` returns the not-found
sentinel immediately, and its instrumented version records that zero loop
bodies (update iterations) were executed. -/
theorem claim_C3 :
    ∀ (f : ℚ → ℚ) (a b tol : ℚ) (n : ℕ), 0 ≤ f a * f b →
      false_position f a b tol n = none ∧
      false_positionI f a b tol n = (none, 0) :=
  fun f a b tol n h =>
    ⟨false_position_none f a b tol n h, false_positionI_none f a b tol n h⟩

/-- Witness for C3: the constant function `1` on any interval violates the
sign precondition, so `false_position` signals not-found at once with zero
update iterations. -/
theorem claim_C3_witness :
    (0 : ℚ) ≤ (fun _ : ℚ => (1 : ℚ)) 0 * (fun _ : ℚ => (1 : ℚ)) 0 ∧
    false_position (fun _ : ℚ => 1) 0 0 (1/10000) 40 = none ∧
    false_positionI (fun _ : ℚ => 1) 0 0 (1/10000) 40 = (none, 0) :=
  ⟨by norm_num,
   (claim_C3 (fun _ => 1) 0 0 (1/10000) 40 (by norm_num)).1,
   (claim_C3 (fun _ => 1) 0 0 (1/10000) 40 (by norm_num)).2⟩

end root_finding

namespace root_finding

lemma bisection_succ (func : ℚ → ℚ) (a b tol : ℚ) (n : ℕ) :
    bisection func a b tol (n + 1) =
      if |func ((a + b) / 2)| < tol then some ((a + b) / 2)
      else bisection func (bisection_update func a b).1
        (bisection_update func a b).2 tol n := by
  simp only [bisection, bisection_update]
  by_cases hc : func ((a + b) / 2) * func a < 0
  · simp [hc]
  · simp [hc]

lemma false_position_loop_succ (func : ℚ → ℚ) (a b tol : ℚ) (n : ℕ) :
    false_position_loop func a b tol (n + 1) =
      if |func ((a * func b - b * func a) / (func b - func a))| < tol
      then some ((a * func b - b * func a) / (func b - func a))
      else false_position_loop func (false_position_update func a b).1
        (false_position_update func a b).2 tol n := by
  simp only [false_position_loop, false_position_update]
  by_cases hc :
      func ((a * func b - b * func a) / (func b - func a)) * func a < 0
  · simp [hc]
  · simp [hc]

lemma sign_step (P Q R : ℚ) (h : P * Q < 0) (h2 : ¬ R * P < 0) : R * Q ≤ 0 := by
  have h2' : 0 ≤ R * P := not_lt.mp h2
  nlinarith [h, h2', sq_nonneg Q, sq_nonneg P, mul_nonneg h2' (sq_nonneg Q)]

/-- C4 (amended): when the current endpoints satisfy the strict opposite-sign
condition `f(a)*f(b) < 0`, the endpoint-replacement step of `bisection` and of
`false_position` (if `f(c)*f(a) < 0` set `b = c`, else set `a = c`) produces
endpoints that satisfy `f(a)*f(b) ≤ 0`.  The hypothesis must be strict: from
`f(a)*f(b) ≤ 0` alone the invariant can be lost (see the counterexample). -/
theorem claim_C4 :
    ∀ (func : ℚ → ℚ) (a b : ℚ), func a * func b < 0 →
      func (bisection_update func a b).1 *
        func (bisection_update func a b).2 ≤ 0 ∧
      func (false_position_update func a b).1 *
        func (false_position_update func a b).2 ≤ 0 := by
  intro func a b hab
  constructor
  · simp only [bisection_update]
    by_cases hc : func ((a + b) / 2) * func a < 0
    · simp only [if_pos hc]
      have := mul_comm (func ((a + b) / 2)) (func a)
      have : func a * func ((a + b) / 2) < 0 := by linarith [hc, this]
      exact this.le
    · simp only [if_neg hc]
      exact sign_step (func a) (func b) (func ((a + b) / 2)) hab hc
  · simp only [false_position_update]
    by_cases hc :
        func ((a * func b - b * func a) / (func b - func a)) * func a < 0
    · simp only [if_pos hc]
      have hcm :=
        mul_comm (func ((a * func b - b * func a) / (func b - func a))) (func a)
      have : func a *
          func ((a * func b - b * func a) / (func b - func a)) < 0 := by
        linarith [hc, hcm]
      exact this.le
    · simp only [if_neg hc]
      exact sign_step (func a) (func b)
        (func ((a * func b - b * func a) / (func b - func a))) hab hc

/-- Counterexample to C4 as stated: with the weak hypothesis
`f(a)*f(b) ≤ 0` the invariant is not preserved.  For the step function that
is `0` at `0` and `1` elsewhere, the endpoints `a = 0`, `b = 2` satisfy
`f(a)*f(b) = 0 ≤ 0`, but the bisection replacement step moves to `(1, 2)`
where `f(1)*f(2) = 1 > 0`. -/
theorem claim_C4_cex :
    zeroAtZero 0 * zeroAtZero 2 ≤ 0 ∧
    ¬ (zeroAtZero (bisection_update zeroAtZero 0 2).1 *
       zeroAtZero (bisection_update zeroAtZero 0 2).2 ≤ 0) := by
  constructor
  · norm_num [zeroAtZero]
  · norm_num [zeroAtZero, bisection_update]

/-- Witness for C4: the identity function on `[-1, 1]` has strictly opposite
signs at the endpoints, and both replacement steps preserve the bracket
invariant. -/
theorem claim_C4_witness :
    (fun t : ℚ => t) (-1) * (fun t : ℚ => t) 1 < 0 ∧
    ((fun t : ℚ => t) (bisection_update (fun t : ℚ => t) (-1) 1).1 *
       (fun t : ℚ => t) (bisection_update (fun t : ℚ => t) (-1) 1).2 ≤ 0 ∧
     (fun t : ℚ => t) (false_position_update (fun t : ℚ => t) (-1) 1).1 *
       (fun t : ℚ => t) (false_position_update (fun t : ℚ => t) (-1) 1).2 ≤ 0) :=
  ⟨by norm_num, claim_C4 (fun t => t) (-1) 1 (by norm_num)⟩

end root_finding

namespace root_finding

lemma bisectionI_le (f : ℚ → ℚ) (tol : ℚ) :
    ∀ (n : ℕ) (a b : ℚ), (bisectionI f a b tol n).2 ≤ n := by
  intro n
  induction n with
  | zero => intro a b; simp [bisectionI]
  | succ n ih =>
    intro a b
    simp only [bisectionI]
    by_cases h1 : |f ((a + b) / 2)| < tol
    · simp [h1]
    · simp only [if_neg h1]
      by_cases h2 : f ((a + b) / 2) * f a < 0
      · simp only [if_pos h2, Prod.snd]
        exact Nat.add_le_add_right (ih a ((a + b) / 2)) 1
      · simp only [if_neg h2, Prod.snd]
        exact Nat.add_le_add_right (ih ((a + b) / 2) b) 1

lemma false_position_loopI_le (f : ℚ → ℚ) (tol : ℚ) :
    ∀ (n : ℕ) (a b : ℚ), (false_position_loopI f a b tol n).2 ≤ n := by
  intro n
  induction n with
  | zero => intro a b; simp [false_position_loopI]
  | succ n ih =>
    intro a b
    simp only [false_position_loopI]
    by_cases h1 : |f ((a * f b - b * f a) / (f b - f a))| < tol
    · simp [h1]
    · simp only [if_neg h1]
      by_cases h2 : f ((a * f b - b * f a) / (f b - f a)) * f a < 0
      · simp only [if_pos h2, Prod.snd]
        exact Nat.add_le_add_right (ih a _) 1
      · simp only [if_neg h2, Prod.snd]
        exact Nat.add_le_add_right (ih _ b) 1

lemma false_positionI_le (f : ℚ → ℚ) (a b tol : ℚ) (n : ℕ) :
    (false_positionI f a b tol n).2 ≤ n := by
  rw [false_positionI]
  by_cases h : f a * f b ≥ 0
  · simp [h]
  · rw [if_neg h]; exact false_position_loopI_le f tol n a b

lemma newton_raphsonI_le (f f1 : ℚ → ℚ) (tol : ℚ) :
    ∀ (n : ℕ) (x : ℚ), (newton_raphsonI f f1 x tol n).2 ≤ n := by
  intro n
  induction n with
  | zero => intro x; simp [newton_raphsonI]
  | succ n ih =>
    intro x
    simp only [newton_raphsonI]
    by_cases h1 : |f (x - f x / f1 x)| < tol
    · simp [h1]
    · simp only [if_neg h1, Prod.snd]
      exact Nat.add_le_add_right (ih _) 1

lemma tangentI_le (f f1 : ℚ → ℚ) (tol : ℚ) :
    ∀ (n : ℕ) (x : ℚ), (tangentI f f1 x tol n).2 ≤ n := by
  intro n
  induction n with
  | zero => intro x; simp [tangentI]
  | succ n ih =>
    intro x
    simp only [tangentI]
    by_cases h1 : |f (x - f x / f1 x)| < tol
    · simp [h1]
    · simp only [if_neg h1, Prod.snd]
      exact Nat.add_le_add_right (ih _) 1

lemma secantI_le (f : ℚ → ℚ) (tol : ℚ) :
    ∀ (n : ℕ) (x0 x1 : ℚ), (secantI f x0 x1 tol n).2 ≤ n := by
  intro n
  induction n with
  | zero => intro x0 x1; simp [secantI]
  | succ n ih =>
    intro x0 x1
    simp only [secantI]
    by_cases h1 : |f (x1 - f x1 * (x1 - x0) / (f x1 - f x0))| < tol
    · simp [h1]
    · simp only [if_neg h1, Prod.snd]
      exact Nat.add_le_add_right (ih _ _) 1

lemma fixed_point_iterationT_le (g : ℚ → ℚ) (tol : ℚ) :
    ∀ (n : ℕ) (x : ℚ), (fixed_point_iterationT g x tol n).2.1 ≤ n := by
  intro n
  induction n with
  | zero => intro x; simp [fixed_point_iterationT]
  | succ n ih =>
    intro x
    simp only [fixed_point_iterationT]
    by_cases h1 : |g x - g (g x)| < tol
    · simp [h1]
    · simp only [if_neg h1, Prod.snd, Prod.fst]
      exact Nat.add_le_add_right (ih _) 1

end root_finding

namespace root_finding

lemma bisectionI_stuck (f : ℚ → ℚ) (tol : ℚ) (hf : ∀ y, ¬ |f y| < tol) :
    ∀ (n : ℕ) (a b : ℚ), bisectionI f a b tol n = (none, n) := by
  intro n
  induction n with
  | zero => intro a b; rfl
  | succ n ih =>
    intro a b
    simp only [bisectionI]
    rw [if_neg (hf _)]
    by_cases h2 : f ((a + b) / 2) * f a < 0
    · simp [h2, ih]
    · simp [h2, ih]

lemma false_position_loopI_stuck (f : ℚ → ℚ) (tol : ℚ)
    (hf : ∀ y, ¬ |f y| < tol) :
    ∀ (n : ℕ) (a b : ℚ), false_position_loopI f a b tol n = (none, n) := by
  intro n
  induction n with
  | zero => intro a b; rfl
  | succ n ih =>
    intro a b
    simp only [false_position_loopI]
    rw [if_neg (hf _)]
    by_cases h2 : f ((a * f b - b * f a) / (f b - f a)) * f a < 0
    · simp [h2, ih]
    · simp [h2, ih]

lemma newton_raphsonI_stuck (f f1 : ℚ → ℚ) (tol : ℚ)
    (hf : ∀ y, ¬ |f y| < tol) :
    ∀ (n : ℕ) (x : ℚ), newton_raphsonI f f1 x tol n = (none, n) := by
  intro n
  induction n with
  | zero => intro x; rfl
  | succ n ih =>
    intro x
    simp only [newton_raphsonI]
    rw [if_neg (hf _)]
    simp [ih]

lemma tangentI_stuck (f f1 : ℚ → ℚ) (tol : ℚ) (hf : ∀ y, ¬ |f y| < tol) :
    ∀ (n : ℕ) (x : ℚ), tangentI f f1 x tol n = (none, n) := by
  intro n
  induction n with
  | zero => intro x; rfl
  | succ n ih =>
    intro x
    simp only [tangentI]
    rw [if_neg (hf _)]
    simp [ih]

lemma secantI_stuck (f : ℚ → ℚ) (tol : ℚ) (hf : ∀ y, ¬ |f y| < tol) :
    ∀ (n : ℕ) (x0 x1 : ℚ), secantI f x0 x1 tol n = (none, n) := by
  intro n
  induction n with
  | zero => intro x0 x1; rfl
  | succ n ih =>
    intro x0 x1
    simp only [secantI]
    rw [if_neg (hf _)]
    simp [ih]

lemma fixed_point_iterationT_stuck (g : ℚ → ℚ) (tol : ℚ)
    (hf : ∀ y, ¬ |y - g y| < tol) :
    ∀ (n : ℕ) (x : ℚ), fixed_point_iterationT g x tol n = (none, n, 2 * n) := by
  intro n
  induction n with
  | zero => intro x; rfl
  | succ n ih =>
    intro x
    simp only [fixed_point_iterationT]
    rw [if_neg (hf _)]
    simp [ih]
    ring

lemma bisectionI_fst (f : ℚ → ℚ) (tol : ℚ) :
    ∀ (n : ℕ) (a b : ℚ), (bisectionI f a b tol n).1 = bisection f a b tol n := by
  intro n
  induction n with
  | zero => intro a b; rfl
  | succ n ih =>
    intro a b
    simp only [bisectionI, bisection]
    by_cases h1 : |f ((a + b) / 2)| < tol
    · simp [h1]
    · by_cases h2 : f ((a + b) / 2) * f a < 0
      · simp [h1, h2, ih]
      · simp [h1, h2, ih]

lemma false_position_loopI_fst (f : ℚ → ℚ) (tol : ℚ) :
    ∀ (n : ℕ) (a b : ℚ),
      (false_position_loopI f a b tol n).1 = false_position_loop f a b tol n := by
  intro n
  induction n with
  | zero => intro a b; rfl
  | succ n ih =>
    intro a b
    simp only [false_position_loopI, false_position_loop]
    by_cases h1 : |f ((a * f b - b * f a) / (f b - f a))| < tol
    · simp [h1]
    · by_cases h2 : f ((a * f b - b * f a) / (f b - f a)) * f a < 0
      · simp [h1, h2, ih]
      · simp [h1, h2, ih]

lemma false_positionI_fst (f : ℚ → ℚ) (a b tol : ℚ) (n : ℕ) :
    (false_positionI f a b tol n).1 = false_position f a b tol n := by
  rw [false_positionI, false_position]
  by_cases h : f a * f b ≥ 0
  · simp [h]
  · rw [if_neg h, if_neg h]; exact false_position_loopI_fst f tol n a b

lemma newton_raphsonI_fst (f f1 : ℚ → ℚ) (tol : ℚ) :
    ∀ (n : ℕ) (x : ℚ),
      (newton_raphsonI f f1 x tol n).1 = newton_raphson f f1 x tol n := by
  intro n
  induction n with
  | zero => intro x; rfl
  | succ n ih =>
    intro x
    simp only [newton_raphsonI, newton_raphson]
    by_cases h1 : |f (x - f x / f1 x)| < tol
    · simp [h1]
    · simp [h1, ih]

lemma tangentI_fst (f f1 : ℚ → ℚ) (tol : ℚ) :
    ∀ (n : ℕ) (x : ℚ), (tangentI f f1 x tol n).1 = tangent f f1 x tol n := by
  intro n
  induction n with
  | zero => intro x; rfl
  | succ n ih =>
    intro x
    simp only [tangentI, tangent]
    by_cases h1 : |f (x - f x / f1 x)| < tol
    · simp [h1]
    · simp [h1, ih]

lemma secantI_fst (f : ℚ → ℚ) (tol : ℚ) :
    ∀ (n : ℕ) (x0 x1 : ℚ),
      (secantI f x0 x1 tol n).1 = secant f x0 x1 tol n := by
  intro n
  induction n with
  | zero => intro x0 x1; rfl
  | succ n ih =>
    intro x0 x1
    simp only [secantI, secant]
    by_cases h1 : |f (x1 - f x1 * (x1 - x0) / (f x1 - f x0))| < tol
    · simp [h1]
    · simp [h1, ih]

lemma fixed_point_iterationT_fst (g : ℚ → ℚ) (tol : ℚ) :
    ∀ (n : ℕ) (x : ℚ),
      (fixed_point_iterationT g x tol n).1 = fixed_point_iteration g x tol n := by
  intro n
  induction n with
  | zero => intro x; rfl
  | succ n ih =>
    intro x
    simp only [fixed_point_iterationT, fixed_point_iteration]
    by_cases h1 : |g x - g (g x)| < tol
    · simp [h1]
    · simp [h1, ih]

end root_finding

namespace root_finding

/-- C5 (amended): every solver performs at most `max_iterations` update
steps; on a function for which the tolerance test never passes, `bisection`,
`newton_raphson`, `tangent`, `secant` and `fixed_point_iteration` execute
exactly `max_iterations` loop bodies and return the sentinel (in the exact
rational model, where division by zero yields `0`), and `false_position`
does so exactly when `f(a)*f(b) < 0`, executing zero loop bodies when
`f(a)*f(b) ≥ 0`.  Counts are those of the instrumented variants, whose
results agree with the plain solvers. -/
theorem claim_C5 :
    ((∀ (f : ℚ → ℚ) (a b tol : ℚ) (n : ℕ), (bisectionI f a b tol n).2 ≤ n) ∧
     (∀ (f : ℚ → ℚ) (a b tol : ℚ) (n : ℕ),
        (false_positionI f a b tol n).2 ≤ n) ∧
     (∀ (f f1 : ℚ → ℚ) (x tol : ℚ) (n : ℕ),
        (newton_raphsonI f f1 x tol n).2 ≤ n) ∧
     (∀ (f f1 : ℚ → ℚ) (x tol : ℚ) (n : ℕ), (tangentI f f1 x tol n).2 ≤ n) ∧
     (∀ (f : ℚ → ℚ) (x0 x1 tol : ℚ) (n : ℕ),
        (secantI f x0 x1 tol n).2 ≤ n) ∧
     (∀ (g : ℚ → ℚ) (x tol : ℚ) (n : ℕ),
        (fixed_point_iterationT g x tol n).2.1 ≤ n)) ∧
    ((∀ (f : ℚ → ℚ) (a b tol : ℚ) (n : ℕ), (∀ y, ¬ |f y| < tol) →
        bisectionI f a b tol n = (none, n)) ∧
     (∀ (f f1 : ℚ → ℚ) (x tol : ℚ) (n : ℕ), (∀ y, ¬ |f y| < tol) →
        newton_raphsonI f f1 x tol n = (none, n)) ∧
     (∀ (f f1 : ℚ → ℚ) (x tol : ℚ) (n : ℕ), (∀ y, ¬ |f y| < tol) →
        tangentI f f1 x tol n = (none, n)) ∧
     (∀ (f : ℚ → ℚ) (x0 x1 tol : ℚ) (n : ℕ), (∀ y, ¬ |f y| < tol) →
        secantI f x0 x1 tol n = (none, n)) ∧
     (∀ (g : ℚ → ℚ) (x tol : ℚ) (n : ℕ), (∀ y, ¬ |y - g y| < tol) →
        fixed_point_iterationT g x tol n = (none, n, 2 * n)) ∧
     (∀ (f : ℚ → ℚ) (a b tol : ℚ) (n : ℕ), (∀ y, ¬ |f y| < tol) →
        (f a * f b < 0 → false_positionI f a b tol n = (none, n)) ∧
        (0 ≤ f a * f b → false_positionI f a b tol n = (none, 0)))) :=
  ⟨⟨fun f a b tol n => bisectionI_le f tol n a b,
    fun f a b tol n => false_positionI_le f a b tol n,
    fun f f1 x tol n => newton_raphsonI_le f f1 tol n x,
    fun f f1 x tol n => tangentI_le f f1 tol n x,
    fun f x0 x1 tol n => secantI_le f tol n x0 x1,
    fun g x tol n => fixed_point_iterationT_le g tol n x⟩,
   ⟨fun f a b tol n hf => bisectionI_stuck f tol hf n a b,
    fun f f1 x tol n hf => newton_raphsonI_stuck f f1 tol hf n x,
    fun f f1 x tol n hf => tangentI_stuck f f1 tol hf n x,
    fun f x0 x1 tol n hf => secantI_stuck f tol hf n x0 x1,
    fun g x tol n hf => fixed_point_iterationT_stuck g tol hf n x,
    fun f a b tol n hf =>
      ⟨fun hab => by
        rw [false_positionI, if_neg (by simp only [ge_iff_le, not_le]; exact hab)]
        exact false_position_loopI_stuck f tol hf n a b,
       fun hab => false_positionI_none f a b tol n hab⟩⟩⟩

/-- Counterexample to C5 as stated: for the constant function `1`, on which
the tolerance test never passes, `false_position` with `max_iterations = 40`
returns the sentinel after `0` update attempts, not after `40`, because its
sign precondition check fires before the loop. -/
theorem claim_C5_cex :
    (false_positionI (fun _ : ℚ => 1) 0 1 (1/10000) 40).2 = 0 ∧
    (0 : ℕ) ≠ 40 ∧ ¬ |(1 : ℚ)| < 1/10000 := by
  refine ⟨?_, by norm_num, by norm_num⟩
  norm_num [false_positionI]

/-- Witness for C5: concrete non-convergent runs.  With `max_iterations = 3`
each solver executes exactly three update attempts and returns the sentinel;
`false_position` does so on a sign-changing step function, and returns after
zero attempts on the constant function `1`. -/
theorem claim_C5_witness :
    bisectionI (fun _ : ℚ => 1) 0 1 (1/10000) 3 = (none, 3) ∧
    newton_raphsonI (fun _ : ℚ => 1) (fun _ : ℚ => 1) 0 (1/10000) 3 =
      (none, 3) ∧
    tangentI (fun _ : ℚ => 1) (fun _ : ℚ => 1) 0 (1/10000) 3 = (none, 3) ∧
    secantI (fun _ : ℚ => 1) 0 1 (1/10000) 3 = (none, 3) ∧
    fixed_point_iterationT (fun t : ℚ => t + 1) 0 (1/10000) 3 =
      (none, 3, 2 * 3) ∧
    false_positionI (fun t : ℚ => if t < 1 then (-1 : ℚ) else 1) 0 2 (1/2) 3 =
      (none, 3) ∧
    false_positionI (fun _ : ℚ => 1) 0 1 (1/10000) 40 = (none, 0) :=
  ⟨claim_C5.2.1 (fun _ => 1) 0 1 (1/10000) 3 (fun y => by norm_num),
   claim_C5.2.2.1 (fun _ => 1) (fun _ => 1) 0 (1/10000) 3
     (fun y => by norm_num),
   claim_C5.2.2.2.1 (fun _ => 1) (fun _ => 1) 0 (1/10000) 3
     (fun y => by norm_num),
   claim_C5.2.2.2.2.1 (fun _ => 1) 0 1 (1/10000) 3 (fun y => by norm_num),
   claim_C5.2.2.2.2.2.1 (fun t => t + 1) 0 (1/10000) 3
     (fun y => by
       have hy : y - (y + 1) = -1 := by ring
       rw [hy]; norm_num),
   (claim_C5.2.2.2.2.2.2 (fun t => if t < 1 then (-1 : ℚ) else 1) 0 2 (1/2) 3
     (fun y => by by_cases hy : y < 1 <;> simp [hy] <;> norm_num)).1
     (by norm_num),
   (claim_C5.2.2.2.2.2.2 (fun _ => 1) 0 1 (1/10000) 40
     (fun y => by norm_num)).2 (by norm_num)⟩

end root_finding

namespace root_finding

lemma bracket_of_loop_mono (f : ℚ → ℚ) (k : ℚ) :
    ∀ (n m : ℕ) (a fa b fb s : ℚ) (p : ℚ × ℚ), n ≤ m →
      bracket_of_loop f a fa b fb s k n = some p →
      bracket_of_loop f a fa b fb s k m = some p := by
  intro n
  induction n with
  | zero => intro m a fa b fb s p _ h; simp [bracket_of_loop] at h
  | succ n ih =>
    intro m a fa b fb s p hnm h
    obtain ⟨m', rfl⟩ : ∃ m', m = m' + 1 := ⟨m - 1, by omega⟩
    simp only [bracket_of_loop] at h ⊢
    by_cases hc : f (b + s) * fb < 0
    · rw [if_pos hc] at h ⊢; exact h
    · rw [if_neg hc] at h ⊢
      exact ih m' b fb (b + s) (f (b + s)) (s * k) p (by omega) h

lemma bracket_of_mono (f : ℚ → ℚ) (x s k : ℚ) (n m : ℕ) (p : ℚ × ℚ)
    (hnm : n ≤ m) (h : bracket_of f x s k n = some p) :
    bracket_of f x s k m = some p := by
  simp only [bracket_of] at h ⊢
  by_cases hc : f (x + s) > f x
  · rw [if_pos hc] at h ⊢
    exact bracket_of_loop_mono f k n m _ _ _ _ _ p hnm h
  · rw [if_neg hc] at h ⊢
    exact bracket_of_loop_mono f k n m _ _ _ _ _ p hnm h

lemma bracket_of_loop_ret (f : ℚ → ℚ) (k : ℚ) :
    ∀ (n : ℕ) (a fa b fb s lo hi : ℚ), fb = f b →
      (b = a + s ∨ 0 ≤ f a * f b) →
      bracket_of_loop f a fa b fb s k n = some (lo, hi) →
      lo < hi ∧ ∃ u v, (u = lo ∨ u = hi) ∧ f u * f v < 0 := by
  intro n
  induction n with
  | zero => intro a fa b fb s lo hi _ _ h; simp [bracket_of_loop] at h
  | succ n ih =>
    intro a fa b fb s lo hi hfb hinv h
    simp only [bracket_of_loop] at h
    by_cases hc : f (b + s) * fb < 0
    · rw [if_pos hc, Option.some_inj] at h
      have hne : a ≠ b + s := by
        intro heq
        rcases hinv with h1 | h2
        · have hs : s = 0 := by rw [h1] at heq; linarith
          rw [hfb, hs, add_zero] at hc
          exact absurd hc (not_lt.mpr (mul_self_nonneg (f b)))
        · rw [hfb, ← heq] at hc
          exact absurd hc (not_lt.mpr h2)
      by_cases hlt : a < b + s
      · rw [if_pos hlt] at h
        injection h with h1 h2
        subst h1; subst h2
        exact ⟨hlt, ⟨b + s, b, Or.inr rfl, by rw [hfb] at hc; exact hc⟩⟩
      · rw [if_neg hlt] at h
        injection h with h1 h2
        subst h1; subst h2
        exact ⟨lt_of_le_of_ne (not_lt.mp hlt) (fun e => hne e.symm),
          ⟨b + s, b, Or.inl rfl, by rw [hfb] at hc; exact hc⟩⟩
    · rw [if_neg hc] at h
      exact ih b fb (b + s) (f (b + s)) (s * k) lo hi rfl
        (Or.inr (by rw [hfb] at hc; rw [mul_comm]; exact not_lt.mp hc)) h

/-- C6 (amended): whenever `bracket_of` returns a pair `(low, high)`, then
`low < high` and `f` changes sign between one of the returned endpoints and
some probed point (`f(u)*f(v) < 0` with `u` an endpoint of the returned
pair); the returned endpoints themselves need not satisfy
`f(low)*f(high) < 0` (see the counterexample), because the code checks the
sign change between the last two probes `b` and `c` but returns `(a, c)`.
In the concrete scenario `bracket_of (fun x => x^2 - x) 0 (1/10) 2 1000`
the original property does hold: the result is `(2/5, 8/5)` with
`low < high` and `f(low)*f(high) < 0`. -/
theorem claim_C6 :
    (∀ (f : ℚ → ℚ) (x s k : ℚ) (ops : ℕ) (lo hi : ℚ),
        bracket_of f x s k ops = some (lo, hi) →
        lo < hi ∧ ∃ u v, (u = lo ∨ u = hi) ∧ f u * f v < 0) ∧
    bracket_of (fun t : ℚ => t^2 - t) 0 (1/10) 2 1000 = some (2/5, 8/5) ∧
    (2 : ℚ)/5 < 8/5 ∧
    (((2 : ℚ)/5)^2 - 2/5) * (((8 : ℚ)/5)^2 - 8/5) < 0 := by
  refine ⟨?_, ?_, by norm_num, by norm_num⟩
  · intro f x s k ops lo hi h
    simp only [bracket_of] at h
    by_cases hsw : f (x + s) > f x
    · rw [if_pos hsw] at h
      exact bracket_of_loop_ret f k ops (x + s) (f (x + s)) x (f x) (-s)
        lo hi rfl (Or.inl (by ring)) h
    · rw [if_neg hsw] at h
      exact bracket_of_loop_ret f k ops x (f x) (x + s) (f (x + s)) s
        lo hi rfl (Or.inl rfl) h
  · exact bracket_of_mono (fun t => t^2 - t) 0 (1/10) 2 4 1000 _
      (by norm_num) (by norm_num [bracket_of, bracket_of_loop])

/-- Counterexample to C6 as stated: for the function that is `-1` at `1/10`
and `1` elsewhere, `bracket_of` starting at `0` with step `1/10` returns the
pair `(0, 1/5)`, whose endpoints have `f(0)*f(1/5) = 1`, not a sign change:
the sign change detected by the loop is between the probes `1/10` and `1/5`,
but the function returns the stale left endpoint `0`. -/
theorem claim_C6_cex :
    bracket_of negAtTenth 0 (1/10) 2 1000 = some (0, 1/5) ∧
    ¬ (negAtTenth 0 * negAtTenth (1/5) < 0) := by
  constructor
  · exact bracket_of_mono negAtTenth 0 (1/10) 2 1 1000 _ (by norm_num)
      (by norm_num [bracket_of, bracket_of_loop, negAtTenth])
  · norm_num [negAtTenth]

/-- Witness for C6: the amended universal statement applied to the concrete
scenario of the claim. -/
theorem claim_C6_witness :
    (2 : ℚ)/5 < 8/5 ∧
    ∃ u v, (u = (2 : ℚ)/5 ∨ u = (8 : ℚ)/5) ∧
      (fun t : ℚ => t^2 - t) u * (fun t : ℚ => t^2 - t) v < 0 :=
  claim_C6.1 (fun t : ℚ => t^2 - t) 0 (1/10) 2 1000 (2/5) (8/5)
    (bracket_of_mono (fun t : ℚ => t^2 - t) 0 (1/10) 2 4 1000 _
      (by norm_num) (by norm_num [bracket_of, bracket_of_loop]))

lemma bracket_of_loop_pos (f : ℚ → ℚ) (k : ℚ) (hf : ∀ y, 0 < f y) :
    ∀ (n : ℕ) (a fa b fb s : ℚ), fb = f b →
      bracket_of_loop f a fa b fb s k n = none := by
  intro n
  induction n with
  | zero => intro a fa b fb s _; rfl
  | succ n ih =>
    intro a fa b fb s hfb
    simp only [bracket_of_loop]
    rw [if_neg (by rw [hfb]; exact not_lt.mpr (le_of_lt (mul_pos (hf _) (hf _))))]
    exact ih b fb (b + s) (f (b + s)) (s * k) rfl

/-- C9: for a function that is strictly positive everywhere (such as
`x^2 + 1`) the expanding search never finds a sign change, exhausts its
`ops` probes, falls off the loop, and the call yields the implicit `None`
(modelled as `none`) — the same value as the not-found sentinel, with no
distinct signal or exception for exhaustion. -/
theorem claim_C9 :
    ∀ (f : ℚ → ℚ) (x s k : ℚ) (ops : ℕ), (∀ y, 0 < f y) →
      bracket_of f x s k ops = none := by
  intro f x s k ops hf
  simp only [bracket_of]
  by_cases hsw : f (x + s) > f x
  · rw [if_pos hsw]; exact bracket_of_loop_pos f k hf ops _ _ _ _ _ rfl
  · rw [if_neg hsw]; exact bracket_of_loop_pos f k hf ops _ _ _ _ _ rfl

/-- Witness for C9: the strictly positive function `x^2 + 1` makes
`bracket_of` exhaust its probe budget and yield `none`. -/
theorem claim_C9_witness :
    (∀ y : ℚ, 0 < y^2 + 1) ∧
    bracket_of (fun y : ℚ => y^2 + 1) 0 (1/10) 2 1000 = none :=
  ⟨fun y => by positivity,
   claim_C9 (fun y => y^2 + 1) 0 (1/10) 2 1000 (fun y => by positivity)⟩

end root_finding

namespace root_finding

lemma fixed_point_iterationT_evals (g : ℚ → ℚ) (tol : ℚ) :
    ∀ (n : ℕ) (x : ℚ),
      (fixed_point_iterationT g x tol n).2.2 =
        2 * (fixed_point_iterationT g x tol n).2.1 := by
  intro n
  induction n with
  | zero => intro x; rfl
  | succ n ih =>
    intro x
    simp only [fixed_point_iterationT]
    by_cases h1 : |g x - g (g x)| < tol
    · simp [h1]
    · simp only [if_neg h1, Prod.snd, Prod.fst]
      rw [ih]
      ring

lemma fixed_point_iteration_char (g : ℚ → ℚ) (tol : ℚ) :
    ∀ (n : ℕ) (x0 r : ℚ), fixed_point_iteration g x0 tol n = some r →
      ∃ m, 1 ≤ m ∧ m ≤ n ∧ r = g^[m] x0 ∧ |r - g r| < tol ∧
        (∀ j, 1 ≤ j → j < m → ¬ |g^[j] x0 - g^[j + 1] x0| < tol) ∧
        (fixed_point_iterationT g x0 tol n).2.1 = m := by
  intro n
  induction n with
  | zero => intro x0 r h; simp [fixed_point_iteration] at h
  | succ n ih =>
    intro x0 r h
    simp only [fixed_point_iteration] at h
    by_cases hc : |g x0 - g (g x0)| < tol
    · rw [if_pos hc, Option.some_inj] at h
      refine ⟨1, le_refl 1, by omega, ?_, ?_, ?_, ?_⟩
      · rw [← h]; simp
      · rw [← h]; exact hc
      · intro j hj1 hj; omega
      · simp [fixed_point_iterationT, hc]
    · rw [if_neg hc] at h
      obtain ⟨m, hm1, hmn, hr, htol, hmin, hcnt⟩ := ih (g x0) r h
      refine ⟨m + 1, by omega, by omega, ?_, htol, ?_, ?_⟩
      · rw [Function.iterate_succ_apply]; exact hr
      · intro j hj1 hjm
        rcases j with _ | j
        · omega
        rcases j with _ | j'
        · simpa using hc
        · have hj'1 : 1 ≤ j' + 1 := by omega
          have hlt : j' + 1 < m := by omega
          have hmj := hmin (j' + 1) hj'1 hlt
          simp only [Function.iterate_succ_apply] at hmj ⊢
          exact hmj
      · simp only [fixed_point_iterationT, if_neg hc, Prod.snd, Prod.fst]
        omega
    
/-- C7: in `fixed_point_iteration`, the convergence test at each iteration
compares the value just produced by the update `x = g(x)` against one
further application of `g`: a non-sentinel result `r` is `g` applied `m`
times to the initial guess for some `1 ≤ m ≤ max_iterations` (hence always
in the image of `g`), satisfies `|r - g(r)| < tolerance`, is the first such
iterate, and every executed loop body evaluates `g` exactly twice (once for
the update and once more for the test), so the evaluation count is twice
the iteration count. -/
theorem claim_C7 :
    (∀ (g : ℚ → ℚ) (x0 tol : ℚ) (n : ℕ),
        (fixed_point_iterationT g x0 tol n).2.2 =
          2 * (fixed_point_iterationT g x0 tol n).2.1 ∧
        (fixed_point_iterationT g x0 tol n).1 =
          fixed_point_iteration g x0 tol n) ∧
    (∀ (g : ℚ → ℚ) (x0 tol : ℚ) (n : ℕ) (r : ℚ),
        fixed_point_iteration g x0 tol n = some r →
        ∃ m, 1 ≤ m ∧ m ≤ n ∧ r = g^[m] x0 ∧ |r - g r| < tol ∧
          (∀ j, 1 ≤ j → j < m → ¬ |g^[j] x0 - g^[j + 1] x0| < tol) ∧
          (fixed_point_iterationT g x0 tol n).2.1 = m) :=
  ⟨fun g x0 tol n => ⟨fixed_point_iterationT_evals g tol n x0,
      fixed_point_iterationT_fst g tol n x0⟩,
   fun g x0 tol n r h => fixed_point_iteration_char g tol n x0 r h⟩

/-- Witness for C7: the identity map from `0` converges at the first
iteration, the result is the first iterate of `g`, and one loop body was
executed. -/
theorem claim_C7_witness :
    ∃ m, 1 ≤ m ∧ m ≤ 2 ∧ (0 : ℚ) = (fun t : ℚ => t)^[m] 0 ∧
      |(0 : ℚ) - (fun t : ℚ => t) 0| < 1 ∧
      (∀ j, 1 ≤ j → j < m →
        ¬ |(fun t : ℚ => t)^[j] 0 - (fun t : ℚ => t)^[j + 1] 0| < 1) ∧
      (fixed_point_iterationT (fun t : ℚ => t) 0 1 2).2.1 = m :=
  claim_C7.2 (fun t => t) 0 1 2 0 (by norm_num [fixed_point_iteration])

/-- C8: the numerical derivative helper is a total function computing
exactly the forward-difference quotient `(f(x0+h) - f(x0)) / h` for every
`f`, `x0` and nonzero `h`; applied to `f(x) = x^2` at `x0 = 2` with
`h = 1/100` the result (exactly `401/100`) is within `1/100` of the
analytic derivative `4`. -/
theorem claim_C8 :
    (∀ (f : ℚ → ℚ) (x0 h : ℚ), h ≠ 0 →
        num_derivatives f x0 h = (f (x0 + h) - f x0) / h) ∧
    |num_derivatives (fun t : ℚ => t^2) 2 (1/100) - 4| ≤ 1/100 := by
  constructor
  · intro f x0 h _
    rfl
  · norm_num [num_derivatives, abs_le]

/-- Witness for C8: the forward-difference identity instantiated at
`f(x) = x^2`, `x0 = 2`, `h = 1/100`. -/
theorem claim_C8_witness :
    (1 : ℚ)/100 ≠ 0 ∧
    num_derivatives (fun t : ℚ => t^2) 2 (1/100) =
      ((fun t : ℚ => t^2) (2 + 1/100) - (fun t : ℚ => t^2) 2) / (1/100) :=
  ⟨by norm_num, claim_C8.1 (fun t : ℚ => t^2) 2 (1/100) (by norm_num)⟩

lemma bisection_mem (f : ℚ → ℚ) (tol : ℚ) :
    ∀ (n : ℕ) (a b r : ℚ), bisection f a b tol n = some r →
      min a b ≤ r ∧ r ≤ max a b := by
  intro n
  induction n with
  | zero => intro a b r h; simp [bisection] at h
  | succ n ih =>
    intro a b r h
    simp only [bisection] at h
    have hmid1 : min a b ≤ (a + b) / 2 := by
      rcases le_total a b with hab | hab
      · rw [min_eq_left hab]; linarith
      · rw [min_eq_right hab]; linarith
    have hmid2 : (a + b) / 2 ≤ max a b := by
      rcases le_total a b with hab | hab
      · rw [max_eq_right hab]; linarith
      · rw [max_eq_left hab]; linarith
    split_ifs at h with h1 h2
    · rw [Option.some_inj] at h; rw [← h]; exact ⟨hmid1, hmid2⟩
    · obtain ⟨ih1, ih2⟩ := ih a ((a + b) / 2) r h
      exact ⟨le_trans (le_min (min_le_left a b) hmid1) ih1,
        le_trans ih2 (max_le (le_max_left a b) hmid2)⟩
    · obtain ⟨ih1, ih2⟩ := ih ((a + b) / 2) b r h
      exact ⟨le_trans (le_min hmid1 (min_le_right a b)) ih1,
        le_trans ih2 (max_le hmid2 (le_max_right a b))⟩

/-- C10: any non-sentinel estimate returned by `bisection` lies within the
closed interval spanned by the original endpoints, with no precondition on
the signs of `f` at the endpoints. -/
theorem claim_C10 :
    ∀ (f : ℚ → ℚ) (a b tol : ℚ) (n : ℕ) (r : ℚ),
      bisection f a b tol n = some r → min a b ≤ r ∧ r ≤ max a b :=
  fun f a b tol n r h => bisection_mem f tol n a b r h

/-- Witness for C10: a concrete bisection run whose estimate `0` lies in
the interval spanned by `-1` and `1`. -/
theorem claim_C10_witness :
    min (-1 : ℚ) 1 ≤ 0 ∧ (0 : ℚ) ≤ max (-1 : ℚ) 1 :=
  claim_C10 (fun t => t) (-1) 1 1 1 0 (by norm_num [bisection])

end root_finding
